import Mathlib

/-!
Verification of the rule-evaluation and audit-reconciliation engine of
nautobot-plugin-data-validation-engine, shallowly embedded from
src/nautobot_data_validation_engine/custom_validators.py.

Conventions of the embedding:
* Python field values are modelled by `PyValue` (the values the validators
  inspect: `None`, `int`/`bool` — recall `bool` is a subclass of `int` in
  Python — and `str`; floats are out of scope, numbers are integers).
* Django model instances are modelled by `PyInstance`: a `str()` name, a
  content-type label, a primary key and a total attribute map (`getattr`).
* `re.match pattern s` (match-from-start, nonzero result) is abstracted as a
  boolean parameter `reMatch : String → String → Bool`; likewise
  `render_jinja2` followed by `validate_regex` is abstracted as
  `render : String → Option String`, `Option.none` standing for a raised
  exception in either step.
* `nautobot.extras.plugins.CustomValidator.validation_error` raises
  `ValidationError`, so each call to it aborts the running `clean`; the
  orchestration functions therefore short-circuit on the first violation.
* The `AuditResult` table is modelled as a list of rows; Django's
  `update_or_create` keyed on (audit_class_name, content_type, object_id,
  validated_attribute) is modelled by `upsert`, which replaces the first
  row with the same key (under the at-most-one-row-per-key invariant the
  match is unique; Django raises on multiple matching rows).
-/

namespace DataValidationEngine

/-- A Python value as inspected by the validators. -/
inductive PyValue where
  | none
  | int (n : Int)
  | bool (b : Bool)
  | str (s : String)
deriving DecidableEq

/-- Python `==` on the modelled values (`True == 1`, `False == 0`, values of
unrelated types compare unequal). -/
def pyEq : PyValue → PyValue → Bool
  | PyValue.none, PyValue.none => true
  | PyValue.int a, PyValue.int b => a == b
  | PyValue.int a, PyValue.bool b => a == (if b then 1 else 0)
  | PyValue.bool a, PyValue.int b => (if a then (1 : Int) else 0) == b
  | PyValue.bool a, PyValue.bool b => a == b
  | PyValue.str a, PyValue.str b => a == b
  | _, _ => false

/-- Python truthiness of the modelled values. -/
def pyTruthy : PyValue → Bool
  | PyValue.none => false
  | PyValue.int n => n != 0
  | PyValue.bool b => b
  | PyValue.str s => s != ""

/-- Python `str()` of the modelled values. -/
def pyStr : PyValue → String
  | PyValue.none => "None"
  | PyValue.int n => toString n
  | PyValue.bool b => if b then "True" else "False"
  | PyValue.str s => s

/-- `isinstance(v, (int, float))` together with the numeric value:
Python `bool` is a subclass of `int`, so `True`/`False` count as `1`/`0`. -/
def pyNum : PyValue → Option Int
  | PyValue.int n => some n
  | PyValue.bool b => some (if b then 1 else 0)
  | _ => Option.none

/-- A Django model instance as seen by the engine: `name` is `str(obj)`,
`contentType` identifies `ContentType.objects.get_for_model(obj)`,
`objId` is `obj.id`, and `getattr` is the attribute map. -/
structure PyInstance where
  name : String
  contentType : String
  objId : Nat
  getattr : String → PyValue

/-- Rendering of a Python `Optional[int]` in an f-string. -/
def optIntStr : Option Int → String
  | some n => toString n
  | Option.none => "None"

/-- `RegularExpressionValidationRule` configuration record; `name` is
`str(rule)`. -/
structure RegularExpressionValidationRule where
  name : String
  field : String
  regular_expression : String
  context_processing : Bool
  error_message : Option String

/-- `MinMaxValidationRule` configuration record; `name` is `str(rule)`. -/
structure MinMaxValidationRule where
  name : String
  field : String
  min : Option Int
  max : Option Int
  error_message : Option String

/-- `RequiredValidationRule` configuration record. -/
structure RequiredValidationRule where
  field : String
  error_message : Option String

/-- `UniqueValidationRule` configuration record. -/
structure UniqueValidationRule where
  field : String
  max_instances : Nat
  error_message : Option String

/-- `rule.error_message or fallback` (Python `or` on an optional string;
an empty custom message is falsy and also falls back). -/
def messageOr : Option String → String → String
  | some m, fallback => if m == "" then fallback else m
  | Option.none, fallback => fallback

/-- Outcome of evaluating one regex rule (source lines 50-79): `pass`,
a raised `validation_error` (field, message), or a `TypeError` raised by
`re.match` when the field value is neither `None` nor a string. -/
inductive RegexCheckResult where
  | pass
  | violation (field message : String)
  | typeErrorRaised
deriving DecidableEq

/-- One iteration of the regex-rule loop of `BaseValidator.clean`
(source lines 50-79): `None` is coerced to `""`; a context-processed
pattern is rendered and validated, a rendering failure being itself a
violation on the field; a non-match of the effective pattern is a
violation with the custom or generated message. -/
def regexRuleCheck (reMatch : String → String → Bool) (render : String → Option String)
    (rule : RegularExpressionValidationRule) (obj : PyInstance) : RegexCheckResult :=
  let field_value := obj.getattr rule.field
  let coerced : Option String :=
    match field_value with
    | PyValue.none => some ("")
    | PyValue.str s => some s
    | _ => Option.none
  match rule.context_processing, render rule.regular_expression with
  | true, Option.none =>
      RegexCheckResult.violation rule.field
        ("There was an error rendering the regular expression in the data validation rule '"
          ++ rule.name
          ++ "'. Either fix the validation rule or disable it in order to save this data.")
  | true, some rendered =>
      match coerced with
      | Option.none => RegexCheckResult.typeErrorRaised
      | some s =>
          if reMatch rendered s then RegexCheckResult.pass
          else
            RegexCheckResult.violation rule.field
              (messageOr rule.error_message ("Value does not conform to regex: " ++ rendered))
  | false, _ =>
      match coerced with
      | Option.none => RegexCheckResult.typeErrorRaised
      | some s =>
          if reMatch rule.regular_expression s then RegexCheckResult.pass
          else
            RegexCheckResult.violation rule.field
              (messageOr rule.error_message
                ("Value does not conform to regex: " ++ rule.regular_expression))

/-- One iteration of the min/max-rule loop of `BaseValidator.clean`
(source lines 82-108).  The branches form an `if`/`elif` chain and each arm
makes a single `validation_error` call, so at most one violation is produced
per rule; the list records the violations the arm raises. -/
def minMaxRuleCheck (rule : MinMaxValidationRule) (v : PyValue) : List (String × String) :=
  match v with
  | PyValue.none =>
      [(rule.field,
        messageOr rule.error_message
          ("Value does not conform to mix/max validation: min " ++ optIntStr rule.min
            ++ ", max " ++ optIntStr rule.max))]
  | _ =>
      match pyNum v with
      | Option.none =>
          [(rule.field,
            "Unable to validate against min/max rule " ++ rule.name
              ++ " because the field value is not numeric.")]
      | some n =>
          if (match rule.min with | some m => decide (n < m) | Option.none => false) then
            [(rule.field,
              messageOr rule.error_message
                ("Value is less than minimum value: " ++ optIntStr rule.min))]
          else if (match rule.max with | some m => decide (n > m) | Option.none => false) then
            [(rule.field,
              messageOr rule.error_message
                ("Value is more than maximum value: " ++ optIntStr rule.max))]
          else []

/-- One iteration of the required-rule loop of `BaseValidator.clean`
(source lines 110-114): `field_value is None or field_value == ""`. -/
def requiredRuleCheck (rule : RequiredValidationRule) (v : PyValue) :
    Option (String × String) :=
  if v = PyValue.none ∨ pyEq v (PyValue.str ("")) = true then
    some (rule.field, messageOr rule.error_message ("This field cannot be blank."))
  else Option.none

/-- Django's `pluralize` filter: empty suffix exactly for the value `1`. -/
def pluralize (n : Nat) : String := if n == 1 then "" else "s"

/-- One iteration of the unique-rule loop of `BaseValidator.clean`
(source lines 116-128): the default manager's rows with the exact field
value are counted (the instance's own persisted row included) and compared
against `max_instances`. -/
def uniqueRuleCheck (rule : UniqueValidationRule) (obj : PyInstance)
    (db : List (String → PyValue)) : Option (String × String) :=
  let field_value := obj.getattr rule.field
  if field_value ≠ PyValue.none ∧
      rule.max_instances ≤ (db.filter (fun row => decide (row rule.field = field_value))).length
  then
    some (rule.field,
      messageOr rule.error_message
        ("There can only be " ++ toString rule.max_instances ++ " instance"
          ++ pluralize rule.max_instances ++ " with this value."))
  else Option.none

/-! ### Audit Result Ledger -/

/-- A persisted `AuditResult` row. -/
structure AuditRow where
  auditClassName : String
  contentType : String
  objectId : Nat
  validatedAttribute : String
  lastValidationDate : Nat
  validatedAttributeValue : Option String
  message : String
  valid : Bool
deriving DecidableEq

/-- The `AuditResult` table. -/
abbrev Ledger := List AuditRow

/-- The upsert key of `AuditResult.objects.update_or_create`. -/
abbrev RowKey := String × String × Nat × String

/-- The key of a ledger row. -/
def rowKey (r : AuditRow) : RowKey :=
  (r.auditClassName, r.contentType, r.objectId, r.validatedAttribute)

/-- The row stored under a key, if any (first row with that key). -/
def findRow : Ledger → RowKey → Option AuditRow
  | [], _ => Option.none
  | r :: rest, k => if rowKey r = k then some r else findRow rest k

/-- `update_or_create`: replace the row holding the new row's key, or append
the new row.  Under the at-most-one-row-per-key invariant the replaced row is
unique (Django raises `MultipleObjectsReturned` otherwise). -/
def upsert : Ledger → AuditRow → Ledger
  | [], row => [row]
  | r :: rest, row => if rowKey r = rowKey row then row :: rest else r :: upsert rest row

/-! ### Audit Ruleset framework -/

/-- The sentinel attribute of a whole-object ledger row. -/
def allAttr : String := "all"

/-- The payload of an `AuditError` (a Django `ValidationError`): either an
attribute-to-messages mapping (then `message_dict` is available) or a plain
list of messages (then accessing `message_dict` raises `AttributeError`). -/
inductive AuditErrorData where
  | keyed (message_dict : List (String × List String))
  | unkeyed (messages : List String)
deriving DecidableEq

/-- Outcome of one run of a ruleset's caller-supplied `audit` procedure on
the current instance: normal return, a raised `AuditError`, or a raised
exception of any other type (identified by a label). -/
inductive AuditOutcome where
  | ok
  | auditError (e : AuditErrorData)
  | otherError (name : String)
deriving DecidableEq

/-- An `AuditRuleset` subclass together with its `audit` behaviour on the
instance of the current run.  `className` is the resolved
`self.class_name or self.__class__.__name__`. -/
structure RulesetSpec where
  className : String
  enforce : Bool
  audit : AuditOutcome
deriving DecidableEq

/-- What `AuditRuleset.clean` reports to its caller. -/
inductive CleanResult where
  | ok
  | raisedAuditError (e : AuditErrorData)
  | raisedOther (name : String)
deriving DecidableEq

/-- The per-run state of an `AuditRuleset` instance: resolved class name,
the target instance and the `result_date` captured at instantiation. -/
structure AuditCtx where
  className : String
  inst : PyInstance
  date : Nat

/-- The row written by `AuditRuleset.audit_result` (source lines 240-260).
The source's `if attribute:` is a Python truthiness test, so an attribute of
`None` OR the empty string falls to the `else` branch: it becomes the
`"all"` sentinel and no attribute value is read; for a truthy attribute
name the stringified attribute value is stored only when the value itself
is truthy (`str(attribute_value) if attribute_value else None`). -/
def mkRow (ctx : AuditCtx) (message : String) (attrName : Option String) (valid : Bool) :
    AuditRow :=
  match attrName with
  | some a =>
      if a = "" then
        { auditClassName := ctx.className
          contentType := ctx.inst.contentType
          objectId := ctx.inst.objId
          validatedAttribute := allAttr
          lastValidationDate := ctx.date
          validatedAttributeValue := Option.none
          message := message
          valid := valid }
      else
        { auditClassName := ctx.className
          contentType := ctx.inst.contentType
          objectId := ctx.inst.objId
          validatedAttribute := a
          lastValidationDate := ctx.date
          validatedAttributeValue :=
            (if pyTruthy (ctx.inst.getattr a) then some (pyStr (ctx.inst.getattr a))
              else Option.none)
          message := message
          valid := valid }
  | Option.none =>
      { auditClassName := ctx.className
        contentType := ctx.inst.contentType
        objectId := ctx.inst.objId
        validatedAttribute := allAttr
        lastValidationDate := ctx.date
        validatedAttributeValue := Option.none
        message := message
        valid := valid }

/-- `AuditRuleset.audit_result`: one upsert-by-key write to the ledger. -/
def audit_result (ctx : AuditCtx) (led : Ledger) (message : String)
    (attrName : Option String) (valid : Bool) : Ledger :=
  upsert led (mkRow ctx message attrName valid)

/-- The attribute names queried by `mark_existing_attributes_as_valid`
(source lines 201-209): the `validated_attribute` of every ledger row for
this audit class, content type and object whose attribute is neither
`"all"` nor excluded. -/
def existingAttributes (ctx : AuditCtx) (led : Ledger) (exclude_attributes : List String) :
    List String :=
  (led.filter (fun r =>
      r.auditClassName == ctx.className && r.contentType == ctx.inst.contentType
        && r.objectId == ctx.inst.objId
        && !(decide (r.validatedAttribute ∈ allAttr :: exclude_attributes)))).map
    (fun r => r.validatedAttribute)

/-- `AuditRuleset.mark_existing_attributes_as_valid` (source lines 196-211):
every previously recorded attribute outside the excluded set is re-written
as a valid row with a fresh message and the run's timestamp. -/
def mark_existing_attributes_as_valid (ctx : AuditCtx) (led : Ledger)
    (exclude_attributes : List String) : Ledger :=
  (existingAttributes ctx led exclude_attributes).foldl
    (fun l a => audit_result ctx l (a ++ " is valid.") (some a) true) led

/-- The keyed branch of the `except AuditError` handler (source lines
222-225): iterate the failure's `message_dict`, collecting the failed
attributes and writing one invalid row per message. -/
def recordKeyed (ctx : AuditCtx) :
    List (String × List String) → Ledger → List String × Ledger
  | [], led => ([], led)
  | (attrName, msgs) :: rest, led =>
      let led' := msgs.foldl (fun l m => audit_result ctx l m (some attrName) false) led
      let (ex, led'') := recordKeyed ctx rest led'
      (attrName :: ex, led'')

/-- `AuditRuleset.clean` (source lines 213-233): run the audit; on success,
reconcile and write the whole-object valid row; on `AuditError`, write the
invalid rows (keyed, or unkeyed to `"all"`), reconcile excluding the failed
attributes, write the whole-object invalid row and re-raise only if
`enforce`; any other exception propagates with no ledger write. -/
def auditClean (rs : RulesetSpec) (inst : PyInstance) (date : Nat) (led : Ledger) :
    CleanResult × Ledger :=
  let ctx : AuditCtx := ⟨rs.className, inst, date⟩
  match rs.audit with
  | AuditOutcome.ok =>
      let l1 := mark_existing_attributes_as_valid ctx led []
      let l2 := audit_result ctx l1 (inst.name ++ " is valid") Option.none true
      (CleanResult.ok, l2)
  | AuditOutcome.otherError n => (CleanResult.raisedOther n, led)
  | AuditOutcome.auditError e =>
      let excled : List String × Ledger :=
        match e with
        | AuditErrorData.keyed dict => recordKeyed ctx dict led
        | AuditErrorData.unkeyed msgs =>
            ([], msgs.foldl (fun l m => audit_result ctx l m Option.none false) led)
      let l2 := mark_existing_attributes_as_valid ctx excled.2 excled.1
      let l3 := audit_result ctx l2 (inst.name ++ " is not valid") Option.none false
      if rs.enforce then (CleanResult.raisedAuditError e, l3) else (CleanResult.ok, l3)

/-! ### Orchestration (`BaseValidator.clean`) -/

/-- How `BaseValidator.clean` terminates abnormally: a `ValidationError`
raised by `validation_error`, a `TypeError` from `re.match` on a non-string
value, a re-raised `AuditError` from an enforced ruleset, or any other
exception escaping a ruleset's audit. -/
inductive PassError where
  | validationError (field message : String)
  | typeErrorRaised
  | auditErrorRaised (e : AuditErrorData)
  | otherErrorRaised (name : String)
deriving DecidableEq

/-- The regex-rule loop: `validation_error` raises, so the first violation
(or `TypeError`) aborts the loop. -/
def runRegexRules (reMatch : String → String → Bool) (render : String → Option String)
    (obj : PyInstance) : List RegularExpressionValidationRule → Option PassError
  | [] => Option.none
  | rule :: rest =>
      match regexRuleCheck reMatch render rule obj with
      | RegexCheckResult.pass => runRegexRules reMatch render obj rest
      | RegexCheckResult.violation f m => some (PassError.validationError f m)
      | RegexCheckResult.typeErrorRaised => some PassError.typeErrorRaised

/-- The min/max-rule loop: the first raised violation aborts the loop. -/
def runMinMaxRules (obj : PyInstance) : List MinMaxValidationRule → Option PassError
  | [] => Option.none
  | rule :: rest =>
      match minMaxRuleCheck rule (obj.getattr rule.field) with
      | [] => runMinMaxRules obj rest
      | (f, m) :: _ => some (PassError.validationError f m)

/-- The required-rule loop: the first raised violation aborts the loop. -/
def runRequiredRules (obj : PyInstance) : List RequiredValidationRule → Option PassError
  | [] => Option.none
  | rule :: rest =>
      match requiredRuleCheck rule (obj.getattr rule.field) with
      | Option.none => runRequiredRules obj rest
      | some (f, m) => some (PassError.validationError f m)

/-- The unique-rule loop: the first raised violation aborts the loop. -/
def runUniqueRules (obj : PyInstance) (db : List (String → PyValue)) :
    List UniqueValidationRule → Option PassError
  | [] => Option.none
  | rule :: rest =>
      match uniqueRuleCheck rule obj db with
      | Option.none => runUniqueRules obj db rest
      | some (f, m) => some (PassError.validationError f m)

/-- The audit-ruleset loops of `BaseValidator.clean` (source lines 130-146,
the registry rulesets followed by the git-repository rulesets applicable to
the model): each ruleset's `clean` runs in turn; an exception escaping one
ruleset aborts the remaining ones, but ledger writes already made persist. -/
def runAuditClasses (inst : PyInstance) (date : Nat) :
    List RulesetSpec → Ledger → Option PassError × Ledger
  | [], led => (Option.none, led)
  | rs :: rest, led =>
      match auditClean rs inst date led with
      | (CleanResult.ok, led') => runAuditClasses inst date rest led'
      | (CleanResult.raisedAuditError e, led') => (some (PassError.auditErrorRaised e), led')
      | (CleanResult.raisedOther n, led') => (some (PassError.otherErrorRaised n), led')

/-- The configuration visible to one `BaseValidator.clean` pass: the four
per-model rule lists, the applicable rulesets (registry ones followed by
git ones), the default manager's rows, and the regex primitives. -/
structure ValidationConfig where
  regexRules : List RegularExpressionValidationRule
  minMaxRules : List MinMaxValidationRule
  requiredRules : List RequiredValidationRule
  uniqueRules : List UniqueValidationRule
  auditClasses : List RulesetSpec
  db : List (String → PyValue)
  reMatch : String → String → Bool
  render : String → Option String

/-- `BaseValidator.clean` (source lines 45-146): regex, min/max, required
and unique rules in that order — each raising on its first violation — then
the audit rulesets.  The returned ledger holds whatever audit writes
completed before any raise. -/
def baseValidatorClean (cfg : ValidationConfig) (obj : PyInstance) (date : Nat)
    (led : Ledger) : Option PassError × Ledger :=
  match runRegexRules cfg.reMatch cfg.render obj cfg.regexRules with
  | some e => (some e, led)
  | Option.none =>
  match runMinMaxRules obj cfg.minMaxRules with
  | some e => (some e, led)
  | Option.none =>
  match runRequiredRules obj cfg.requiredRules with
  | some e => (some e, led)
  | Option.none =>
  match runUniqueRules obj cfg.db cfg.uniqueRules with
  | some e => (some e, led)
  | Option.none => runAuditClasses obj date cfg.auditClasses led

/-- A sequence of audit ruleset runs (ruleset, instance, run date); each
run's ledger writes persist whether or not the run re-raised. -/
def runSeq : List (RulesetSpec × PyInstance × Nat) → Ledger → Ledger
  | [], led => led
  | (rs, inst, d) :: rest, led => runSeq rest (auditClean rs inst d led).2

/-- At most one ledger row per upsert key. -/
def UniqueKeys (led : Ledger) : Prop :=
  led.Pairwise (fun a b => rowKey a ≠ rowKey b)

/-! ### Ledger lemmas -/

theorem findRow_upsert_self (led : Ledger) (row : AuditRow) :
    findRow (upsert led row) (rowKey row) = some row := by
  induction led with
  | nil => simp [upsert, findRow]
  | cons r rest ih =>
      by_cases h : rowKey r = rowKey row
      · simp [upsert, findRow, h]
      · simp [upsert, findRow, h, ih]

theorem findRow_upsert_ne (led : Ledger) (row : AuditRow) (k : RowKey)
    (hk : k ≠ rowKey row) :
    findRow (upsert led row) k = findRow led k := by
  induction led with
  | nil =>
      simp only [upsert, findRow]
      rw [if_neg (fun h => hk h.symm)]
  | cons r rest ih =>
      simp only [upsert]
      by_cases h : rowKey r = rowKey row
      · rw [if_pos h]
        simp only [findRow]
        rw [if_neg (fun hh : rowKey row = k => hk hh.symm),
          if_neg (fun hh : rowKey r = k => hk (h ▸ hh).symm)]
      · rw [if_neg h]
        simp only [findRow]
        by_cases h2 : rowKey r = k
        · rw [if_pos h2, if_pos h2]
        · rw [if_neg h2, if_neg h2, ih]

theorem mem_of_mem_upsert {led : Ledger} {row r : AuditRow}
    (h : r ∈ upsert led row) : r ∈ led ∨ r = row := by
  induction led with
  | nil => simpa [upsert] using h
  | cons r0 rest ih =>
      by_cases h0 : rowKey r0 = rowKey row
      · simp only [upsert, if_pos h0, List.mem_cons] at h
        rcases h with h | h
        · exact Or.inr h
        · exact Or.inl (List.mem_cons_of_mem _ h)
      · simp only [upsert, if_neg h0, List.mem_cons] at h
        rcases h with h | h
        · exact Or.inl (h ▸ List.mem_cons_self _ _)
        · rcases ih h with h' | h'
          · exact Or.inl (List.mem_cons_of_mem _ h')
          · exact Or.inr h'

theorem mem_upsert_of_ne_key {led : Ledger} {row r : AuditRow}
    (h : r ∈ led) (hk : rowKey r ≠ rowKey row) : r ∈ upsert led row := by
  induction led with
  | nil => cases h
  | cons r0 rest ih =>
      by_cases h0 : rowKey r0 = rowKey row
      · simp only [upsert, if_pos h0]
        rcases List.mem_cons.mp h with h | h
        · exact absurd (h ▸ h0) hk
        · exact List.mem_cons_of_mem _ h
      · simp only [upsert, if_neg h0]
        rcases List.mem_cons.mp h with h | h
        · exact h ▸ List.mem_cons_self _ _
        · exact List.mem_cons_of_mem _ (ih h)

theorem exists_key_mem_upsert {led : Ledger} {row : AuditRow} (r : AuditRow)
    (h : r ∈ led) : ∃ r', r' ∈ upsert led row ∧ rowKey r' = rowKey r := by
  induction led with
  | nil => cases h
  | cons r0 rest ih =>
      by_cases h0 : rowKey r0 = rowKey row
      · simp only [upsert, if_pos h0]
        rcases List.mem_cons.mp h with h | h
        · exact ⟨row, List.mem_cons_self _ _, by rw [← h0, h]⟩
        · exact ⟨r, List.mem_cons_of_mem _ h, rfl⟩
      · simp only [upsert, if_neg h0]
        rcases List.mem_cons.mp h with h | h
        · exact ⟨r0, List.mem_cons_self _ _, by rw [h]⟩
        · rcases ih h with ⟨r', hr', hk⟩
          exact ⟨r', List.mem_cons_of_mem _ hr', hk⟩

theorem uniqueKeys_upsert {led : Ledger} (row : AuditRow)
    (h : UniqueKeys led) : UniqueKeys (upsert led row) := by
  induction led with
  | nil => simp [upsert, UniqueKeys]
  | cons r0 rest ih =>
      rcases List.pairwise_cons.mp h with ⟨h0, hrest⟩
      by_cases hk : rowKey r0 = rowKey row
      · simp only [upsert, if_pos hk]
        exact List.pairwise_cons.mpr ⟨fun b hb => hk ▸ h0 b hb, hrest⟩
      · simp only [upsert, if_neg hk]
        refine List.pairwise_cons.mpr ⟨fun b hb => ?_, ih hrest⟩
        rcases mem_of_mem_upsert hb with hb' | hb'
        · exact h0 b hb'
        · exact hb' ▸ hk

theorem findRow_foldl_upsert_ne {α : Type} (f : α → AuditRow) (xs : List α)
    (led : Ledger) (k : RowKey) (h : ∀ x ∈ xs, rowKey (f x) ≠ k) :
    findRow (xs.foldl (fun l x => upsert l (f x)) led) k = findRow led k := by
  induction xs generalizing led with
  | nil => rfl
  | cons y ys ih =>
      have hy : k ≠ rowKey (f y) := fun hh => h y (List.mem_cons_self _ _) hh.symm
      simp only [List.foldl_cons]
      rw [ih (upsert led (f y)) (fun x hx => h x (List.mem_cons_of_mem _ hx)),
        findRow_upsert_ne _ _ _ hy]

theorem findRow_foldl_upsert_eq {α : Type} [DecidableEq α] (f : α → AuditRow)
    (xs : List α) (led : Ledger) (k : RowKey) (r : AuditRow)
    (hall : ∀ x ∈ xs, rowKey (f x) = k → f x = r)
    (hmem : ∃ x ∈ xs, rowKey (f x) = k) (hr : rowKey r = k) :
    findRow (xs.foldl (fun l x => upsert l (f x)) led) k = some r := by
  induction xs generalizing led with
  | nil => rcases hmem with ⟨x, hx, _⟩; cases hx
  | cons y ys ih =>
      simp only [List.foldl_cons]
      by_cases hrem : ∃ x ∈ ys, rowKey (f x) = k
      · exact ih _ (fun x hx => hall x (List.mem_cons_of_mem _ hx)) hrem
      · have hy : rowKey (f y) = k := by
          rcases hmem with ⟨x, hx, hk⟩
          rcases List.mem_cons.mp hx with h | h
          · exact h ▸ hk
          · exact absurd ⟨x, h, hk⟩ hrem
        have hfy : f y = r := hall y (List.mem_cons_self _ _) hy
        rw [findRow_foldl_upsert_ne f ys _ k
            (fun x hx hk => hrem ⟨x, hx, hk⟩),
          hfy, ← hr, findRow_upsert_self]

theorem mem_foldl_upsert_of_ne {α : Type} (f : α → AuditRow) (xs : List α)
    {led : Ledger} {r : AuditRow} (h : r ∈ led)
    (hk : ∀ x ∈ xs, rowKey (f x) ≠ rowKey r) :
    r ∈ xs.foldl (fun l x => upsert l (f x)) led := by
  induction xs generalizing led with
  | nil => exact h
  | cons y ys ih =>
      simp only [List.foldl_cons]
      refine ih (mem_upsert_of_ne_key h ?_) (fun x hx => hk x (List.mem_cons_of_mem _ hx))
      exact fun hh => hk y (List.mem_cons_self _ _) hh.symm

theorem exists_key_mem_foldl_upsert {α : Type} (f : α → AuditRow) (xs : List α)
    {led : Ledger} (r : AuditRow) (h : r ∈ led) :
    ∃ r', r' ∈ xs.foldl (fun l x => upsert l (f x)) led ∧ rowKey r' = rowKey r := by
  induction xs generalizing led r with
  | nil => exact ⟨r, h, rfl⟩
  | cons y ys ih =>
      simp only [List.foldl_cons]
      rcases @exists_key_mem_upsert led (f y) r h with ⟨r1, hr1, hk1⟩
      rcases ih r1 hr1 with ⟨r2, hr2, hk2⟩
      exact ⟨r2, hr2, hk2.trans hk1⟩

theorem uniqueKeys_foldl_upsert {α : Type} (f : α → AuditRow) (xs : List α)
    {led : Ledger} (h : UniqueKeys led) :
    UniqueKeys (xs.foldl (fun l x => upsert l (f x)) led) := by
  induction xs generalizing led with
  | nil => exact h
  | cons y ys ih => exact ih (uniqueKeys_upsert _ h)

/-- The ledger key an `audit_result` write for attribute `a` targets. -/
def ctxKey (ctx : AuditCtx) (a : String) : RowKey :=
  (ctx.className, ctx.inst.contentType, ctx.inst.objId, a)

/-- The row `mark_existing_attributes_as_valid` writes for attribute `a`. -/
def validRow (ctx : AuditCtx) (a : String) : AuditRow :=
  mkRow ctx (a ++ " is valid.") (some a) true

theorem rowKey_mkRow_some (ctx : AuditCtx) (msg : String) (a : String) (v : Bool)
    (ha : a ≠ "") :
    rowKey (mkRow ctx msg (some a) v) = ctxKey ctx a := by
  simp [mkRow, rowKey, ctxKey, ha]

theorem rowKey_mkRow_none (ctx : AuditCtx) (msg : String) (v : Bool) :
    rowKey (mkRow ctx msg Option.none v) = ctxKey ctx allAttr := rfl

/-- A falsy (empty) attribute name is coerced to the `"all"` sentinel. -/
theorem rowKey_mkRow_empty (ctx : AuditCtx) (msg : String) (v : Bool) :
    rowKey (mkRow ctx msg (some ("")) v) = ctxKey ctx allAttr := rfl

theorem mkRow_valid (ctx : AuditCtx) (msg : String) (attrName : Option String) (v : Bool) :
    (mkRow ctx msg attrName v).valid = v := by
  cases attrName with
  | none => rfl
  | some a => by_cases ha : a = "" <;> simp [mkRow, ha]

theorem mkRow_className (ctx : AuditCtx) (msg : String) (attrName : Option String)
    (v : Bool) : (mkRow ctx msg attrName v).auditClassName = ctx.className := by
  cases attrName with
  | none => rfl
  | some a => by_cases ha : a = "" <;> simp [mkRow, ha]

theorem mkRow_contentType (ctx : AuditCtx) (msg : String) (attrName : Option String)
    (v : Bool) : (mkRow ctx msg attrName v).contentType = ctx.inst.contentType := by
  cases attrName with
  | none => rfl
  | some a => by_cases ha : a = "" <;> simp [mkRow, ha]

theorem mkRow_objectId (ctx : AuditCtx) (msg : String) (attrName : Option String)
    (v : Bool) : (mkRow ctx msg attrName v).objectId = ctx.inst.objId := by
  cases attrName with
  | none => rfl
  | some a => by_cases ha : a = "" <;> simp [mkRow, ha]

theorem mkRow_vAttr_some (ctx : AuditCtx) (msg : String) (a : String) (v : Bool)
    (ha : a ≠ "") : (mkRow ctx msg (some a) v).validatedAttribute = a := by
  simp [mkRow, ha]

theorem ctxKey_inj {ctx : AuditCtx} {a b : String} (h : ctxKey ctx a = ctxKey ctx b) :
    a = b := by
  simpa [ctxKey] using h

theorem findRow_eq_some {led : Ledger} {k : RowKey} {r : AuditRow}
    (h : findRow led k = some r) : r ∈ led ∧ rowKey r = k := by
  induction led with
  | nil => cases h
  | cons r0 rest ih =>
      by_cases h0 : rowKey r0 = k
      · simp only [findRow, if_pos h0, Option.some.injEq] at h
        exact ⟨h ▸ List.mem_cons_self _ _, h ▸ h0⟩
      · simp only [findRow, if_neg h0] at h
        rcases ih h with ⟨hm, hk⟩
        exact ⟨List.mem_cons_of_mem _ hm, hk⟩

theorem mem_existingAttributes_of {ctx : AuditCtx} {led : Ledger}
    {ex : List String} {r : AuditRow} (hm : r ∈ led)
    (h1 : r.auditClassName = ctx.className) (h2 : r.contentType = ctx.inst.contentType)
    (h3 : r.objectId = ctx.inst.objId) (h4 : r.validatedAttribute ≠ allAttr)
    (h5 : r.validatedAttribute ∉ ex) :
    r.validatedAttribute ∈ existingAttributes ctx led ex := by
  unfold existingAttributes
  refine List.mem_map.mpr ⟨r, List.mem_filter.mpr ⟨hm, ?_⟩, rfl⟩
  simp only [Bool.and_eq_true, beq_iff_eq, Bool.not_eq_true', decide_eq_false_iff_not,
    List.mem_cons, not_or]
  exact ⟨⟨⟨h1, h2⟩, h3⟩, h4, h5⟩

theorem of_mem_existingAttributes {ctx : AuditCtx} {led : Ledger}
    {ex : List String} {a : String} (h : a ∈ existingAttributes ctx led ex) :
    a ≠ allAttr ∧ a ∉ ex := by
  unfold existingAttributes at h
  rcases List.mem_map.mp h with ⟨r, hr, hra⟩
  have hp := (List.mem_filter.mp hr).2
  simp only [Bool.and_eq_true, beq_iff_eq, Bool.not_eq_true', decide_eq_false_iff_not,
    List.mem_cons, not_or] at hp
  exact hra ▸ hp.2

/-- `mark_existing_attributes_as_valid` as a fold of upserts of `validRow`s. -/
theorem mark_existing_eq_foldl (ctx : AuditCtx) (led : Ledger) (ex : List String) :
    mark_existing_attributes_as_valid ctx led ex =
      (existingAttributes ctx led ex).foldl (fun l a => upsert l (validRow ctx a)) led := rfl

/-- Key of a sweep write for a truthy attribute name. -/
theorem rowKey_validRow (ctx : AuditCtx) (a : String) (ha : a ≠ "") :
    rowKey (validRow ctx a) = ctxKey ctx a :=
  rowKey_mkRow_some ctx (a ++ " is valid.") a true ha

/-- Key of a sweep write for the (falsy) empty attribute name: it is
coerced to the `"all"` sentinel. -/
theorem rowKey_validRow_empty (ctx : AuditCtx) :
    rowKey (validRow ctx ("")) = ctxKey ctx allAttr := rfl

theorem findRow_mark_existing_ne (ctx : AuditCtx) (led : Ledger) (ex : List String)
    (k : RowKey)
    (h : ∀ a ∈ existingAttributes ctx led ex, rowKey (validRow ctx a) ≠ k) :
    findRow (mark_existing_attributes_as_valid ctx led ex) k = findRow led k := by
  rw [mark_existing_eq_foldl]
  exact findRow_foldl_upsert_ne _ _ _ _ (fun a ha => h a ha)

theorem findRow_mark_existing_marked (ctx : AuditCtx) (led : Ledger) (ex : List String)
    {a : String} (ha : a ∈ existingAttributes ctx led ex) (ha0 : a ≠ "") :
    findRow (mark_existing_attributes_as_valid ctx led ex) (ctxKey ctx a) =
      some (validRow ctx a) := by
  rw [mark_existing_eq_foldl]
  refine findRow_foldl_upsert_eq _ _ _ _ _ ?_ ⟨a, ha, rowKey_validRow ctx a ha0⟩
    (rowKey_validRow ctx a ha0)
  intro y hy hk
  by_cases hy0 : y = ""
  · subst hy0
    rw [rowKey_validRow_empty] at hk
    exact absurd (ctxKey_inj hk).symm (of_mem_existingAttributes ha).1
  · rw [rowKey_validRow _ _ hy0] at hk
    rw [ctxKey_inj hk]

theorem uniqueKeys_mark_existing (ctx : AuditCtx) {led : Ledger} (ex : List String)
    (h : UniqueKeys led) :
    UniqueKeys (mark_existing_attributes_as_valid ctx led ex) := by
  rw [mark_existing_eq_foldl]
  exact uniqueKeys_foldl_upsert _ _ h

theorem exists_key_mem_mark_existing (ctx : AuditCtx) {led : Ledger} (ex : List String)
    (r : AuditRow) (h : r ∈ led) :
    ∃ r', r' ∈ mark_existing_attributes_as_valid ctx led ex ∧ rowKey r' = rowKey r := by
  rw [mark_existing_eq_foldl]
  exact exists_key_mem_foldl_upsert _ _ r h

theorem recordKeyed_snd (ctx : AuditCtx) (a : String) (ms : List String)
    (rest : List (String × List String)) (led : Ledger) :
    (recordKeyed ctx ((a, ms) :: rest) led).2 =
      (recordKeyed ctx rest
        (ms.foldl (fun l m => upsert l (mkRow ctx m (some a) false)) led)).2 := rfl

theorem recordKeyed_fst (ctx : AuditCtx) (a : String) (ms : List String)
    (rest : List (String × List String)) (led : Ledger) :
    (recordKeyed ctx ((a, ms) :: rest) led).1 =
      a :: (recordKeyed ctx rest
        (ms.foldl (fun l m => upsert l (mkRow ctx m (some a) false)) led)).1 := rfl

theorem uniqueKeys_recordKeyed (ctx : AuditCtx)
    (dict : List (String × List String)) {led : Ledger} (h : UniqueKeys led) :
    UniqueKeys (recordKeyed ctx dict led).2 := by
  induction dict generalizing led with
  | nil => exact h
  | cons p rest ih =>
      rw [show p = (p.1, p.2) from rfl, recordKeyed_snd]
      exact ih (uniqueKeys_foldl_upsert _ _ h)

theorem exists_key_mem_recordKeyed (ctx : AuditCtx)
    (dict : List (String × List String)) {led : Ledger} (r : AuditRow) (h : r ∈ led) :
    ∃ r', r' ∈ (recordKeyed ctx dict led).2 ∧ rowKey r' = rowKey r := by
  induction dict generalizing led r with
  | nil => exact ⟨r, h, rfl⟩
  | cons p rest ih =>
      rw [show p = (p.1, p.2) from rfl, recordKeyed_snd]
      rcases exists_key_mem_foldl_upsert (fun m => mkRow ctx m (some p.1) false) p.2 r h with
        ⟨r1, hr1, hk1⟩
      rcases ih r1 hr1 with ⟨r2, hr2, hk2⟩
      exact ⟨r2, hr2, hk2.trans hk1⟩

/-- Every run of `AuditRuleset.clean` preserves the at-most-one-row-per-key
invariant of the ledger. -/
theorem uniqueKeys_auditClean (rs : RulesetSpec) (inst : PyInstance) (date : Nat)
    {led : Ledger} (h : UniqueKeys led) :
    UniqueKeys (auditClean rs inst date led).2 := by
  unfold auditClean
  match hau : rs.audit with
  | AuditOutcome.ok =>
      exact uniqueKeys_upsert _ (uniqueKeys_mark_existing _ _ h)
  | AuditOutcome.otherError n => exact h
  | AuditOutcome.auditError e =>
      have hbase : UniqueKeys
          (match e with
            | AuditErrorData.keyed dict => recordKeyed ⟨rs.className, inst, date⟩ dict led
            | AuditErrorData.unkeyed msgs =>
                ([], msgs.foldl
                  (fun l m => audit_result ⟨rs.className, inst, date⟩ l m Option.none false)
                  led)).2 := by
        cases e with
        | keyed dict => exact uniqueKeys_recordKeyed _ dict h
        | unkeyed msgs => exact uniqueKeys_foldl_upsert (fun m => mkRow _ m Option.none false) msgs h
      by_cases henf : rs.enforce <;>
        simp only [henf, if_true, if_false] <;>
        exact uniqueKeys_upsert _ (uniqueKeys_mark_existing _ _ hbase)

/-- No run of `AuditRuleset.clean` ever deletes a ledger key. -/
theorem exists_key_mem_auditClean (rs : RulesetSpec) (inst : PyInstance) (date : Nat)
    {led : Ledger} (r : AuditRow) (h : r ∈ led) :
    ∃ r', r' ∈ (auditClean rs inst date led).2 ∧ rowKey r' = rowKey r := by
  unfold auditClean
  match hau : rs.audit with
  | AuditOutcome.ok =>
      rcases exists_key_mem_mark_existing ⟨rs.className, inst, date⟩ [] r h with ⟨r1, hr1, hk1⟩
      rcases exists_key_mem_upsert r1 hr1 with ⟨r2, hr2, hk2⟩
      exact ⟨r2, hr2, hk2.trans hk1⟩
  | AuditOutcome.otherError n => exact ⟨r, h, rfl⟩
  | AuditOutcome.auditError e =>
      have hbase : ∃ r1, r1 ∈
          (match e with
            | AuditErrorData.keyed dict => recordKeyed ⟨rs.className, inst, date⟩ dict led
            | AuditErrorData.unkeyed msgs =>
                ([], msgs.foldl
                  (fun l m => audit_result ⟨rs.className, inst, date⟩ l m Option.none false)
                  led)).2 ∧ rowKey r1 = rowKey r := by
        cases e with
        | keyed dict => exact exists_key_mem_recordKeyed _ dict r h
        | unkeyed msgs =>
            exact exists_key_mem_foldl_upsert (fun m => mkRow _ m Option.none false) msgs r h
      rcases hbase with ⟨r1, hr1, hk1⟩
      rcases exists_key_mem_mark_existing ⟨rs.className, inst, date⟩ _ r1 hr1 with ⟨r2, hr2, hk2⟩
      rcases exists_key_mem_upsert r2 hr2 with ⟨r3, hr3, hk3⟩
      by_cases henf : rs.enforce <;> simp only [henf, if_true, if_false] <;>
        exact ⟨r3, hr3, (hk3.trans hk2).trans hk1⟩

/-! ### Claim C1 -/

/-- A min/max rule whose configured bounds are inconsistent (min 10, max 0),
so the value 5 is simultaneously below the min and above the max. -/
def c1Rule : MinMaxValidationRule :=
  { name := "rule1", field := "x", min := some 10, max := some 0,
    error_message := Option.none }

/-- An instance whose every attribute holds the integer 5. -/
def c1Instance : PyInstance :=
  { name := "obj", contentType := "dcim.site", objId := 1,
    getattr := fun _ => PyValue.int 5 }

/-- C1 is false on the code: for the min/max rule (min 10, max 0) and the
numeric value 5 — which is below the min and above the max — the `elif`
chain of `BaseValidator.clean` produces only the single min violation, not
two violations, and the max check never fires in that pass. -/
theorem c1_minmax_counterexample :
    minMaxRuleCheck c1Rule (PyValue.int 5) =
      [("x", "Value is less than minimum value: 10")] ∧
    (minMaxRuleCheck c1Rule (PyValue.int 5)).length = 1 ∧
    ((5 : Int) < 10 ∧ (0 : Int) < 5) ∧
    runMinMaxRules c1Instance [c1Rule] =
      some (PassError.validationError ("x") ("Value is less than minimum value: 10")) := by
  refine ⟨by decide, by decide, ⟨by decide, by decide⟩, by decide⟩

/-- C1 amended: the min and max checks of a min/max rule are not
independent — they form an `elif` chain.  A violation is produced whenever
the numeric value is below a configured min; the max check only runs when
the min check does not fire; hence a value both below the min and above the
max yields exactly one violation, the min one. -/
theorem c1_minmax_amended (rule : MinMaxValidationRule) (n : Int) :
    (∀ m, rule.min = some m → n < m →
      minMaxRuleCheck rule (PyValue.int n) =
        [(rule.field,
          messageOr rule.error_message
            ("Value is less than minimum value: " ++ optIntStr rule.min))]) ∧
    (∀ M, rule.max = some M → M < n → (∀ m, rule.min = some m → m ≤ n) →
      minMaxRuleCheck rule (PyValue.int n) =
        [(rule.field,
          messageOr rule.error_message
            ("Value is more than maximum value: " ++ optIntStr rule.max))]) ∧
    (∀ m M, rule.min = some m → rule.max = some M → n < m → M < n →
      (minMaxRuleCheck rule (PyValue.int n)).length = 1) := by
  refine ⟨?_, ?_, ?_⟩
  · intro m hm hlt
    simp [minMaxRuleCheck, pyNum, hm, hlt]
  · intro M hM hgt hminpass
    have hmin : (match rule.min with
        | some m => decide (n < m)
        | Option.none => false) = false := by
      cases hmn : rule.min with
      | none => rfl
      | some m =>
          simpa using not_lt.mpr (hminpass m hmn)
    simp [minMaxRuleCheck, pyNum, hmin, hM, hgt]
  · intro m M hm hM hlt hgt
    simp [minMaxRuleCheck, pyNum, hm, hlt]

/-- A consistently configured min/max rule (min 10, max 20) for the amended
C1 witness. -/
def c1WitnessRule : MinMaxValidationRule :=
  { name := "r", field := "x", min := some 10, max := some 20,
    error_message := Option.none }

/-- Witness for the amended C1: both arms fire at concrete inputs. -/
theorem c1_minmax_amended_witness :
    minMaxRuleCheck c1WitnessRule (PyValue.int 3) =
      [("x", "Value is less than minimum value: 10")] ∧
    minMaxRuleCheck c1WitnessRule (PyValue.int 30) =
      [("x", "Value is more than maximum value: 20")] := by
  constructor
  · have h := (c1_minmax_amended c1WitnessRule 3).1 10 rfl (by decide)
    simpa [messageOr, optIntStr, c1WitnessRule] using h
  · have h := (c1_minmax_amended c1WitnessRule 30).2.1 20 rfl (by decide)
      (fun m hm => by simp only [c1WitnessRule, Option.some.injEq] at hm; omega)
    simpa [messageOr, optIntStr, c1WitnessRule] using h

/-! ### Claims C6 and C7 -/

/-- C6: a required rule produces a violation exactly when the field value is
`None` or the empty string; the Python-equality test `field_value == ""`
is not satisfied by `0`, `False` or a whitespace-only string, so those
values never trigger a required violation. -/
theorem c6_required_iff (rule : RequiredValidationRule) (v : PyValue) :
    (requiredRuleCheck rule v =
      if v = PyValue.none ∨ v = PyValue.str ("") then
        some (rule.field, messageOr rule.error_message ("This field cannot be blank."))
      else Option.none) ∧
    requiredRuleCheck rule (PyValue.int 0) = Option.none ∧
    requiredRuleCheck rule (PyValue.bool false) = Option.none ∧
    requiredRuleCheck rule (PyValue.str (" ")) = Option.none := by
  refine ⟨?_, by simp [requiredRuleCheck, pyEq], by simp [requiredRuleCheck, pyEq],
    by simp [requiredRuleCheck, pyEq]⟩
  cases v with
  | none => simp [requiredRuleCheck, pyEq]
  | int n => simp [requiredRuleCheck, pyEq]
  | bool b => simp [requiredRuleCheck, pyEq]
  | str s =>
      by_cases hs : s = ""
      · simp [requiredRuleCheck, pyEq, hs]
      · simp [requiredRuleCheck, pyEq, hs]

/-- C7: a unique-count rule produces a violation exactly when the field
value is non-null and the number of default-manager rows holding that exact
field value — the instance's own persisted row included, since `db` is the
whole collection — is at least `max_instances`; a null field value never
produces a unique-count violation. -/
theorem c7_unique_iff (rule : UniqueValidationRule) (obj : PyInstance)
    (db : List (String → PyValue)) :
    ((uniqueRuleCheck rule obj db).isSome ↔
      (obj.getattr rule.field ≠ PyValue.none ∧
        rule.max_instances ≤
          (db.filter (fun row => decide (row rule.field = obj.getattr rule.field))).length)) ∧
    (obj.getattr rule.field = PyValue.none → uniqueRuleCheck rule obj db = Option.none) := by
  constructor
  · unfold uniqueRuleCheck
    by_cases h : obj.getattr rule.field ≠ PyValue.none ∧
        rule.max_instances ≤
          (db.filter (fun row => decide (row rule.field = obj.getattr rule.field))).length
    · simp [h]
    · simp [h]
  · intro h
    unfold uniqueRuleCheck
    simp [h]

/-- Witness for C7: the null-value clause at a concrete rule and instance. -/
theorem c7_unique_witness :
    uniqueRuleCheck { field := "x", max_instances := 1, error_message := Option.none }
      { name := "o", contentType := "dcim.site", objId := 1,
        getattr := fun _ => PyValue.none } [] = Option.none := by
  have h := (c7_unique_iff
    { field := "x", max_instances := 1, error_message := Option.none }
    { name := "o", contentType := "dcim.site", objId := 1,
      getattr := fun _ => PyValue.none } []).2 rfl
  exact h

/-! ### Claim C5 -/

/-- C5: a regex rule evaluates a `None` field value exactly as it evaluates
the empty string (it is never skipped); with the raw pattern, a non-match on
the coerced value is a violation carrying the custom or generated message
and a match passes; with a context-processed rule whose pattern renders to
`p`, the rule passes exactly when `p` matches the empty string, and a
non-match of `p` is a violation carrying the custom message or the
generated one naming the rendered pattern. -/
theorem c5_regex_none_as_empty (reMatch : String → String → Bool)
    (render : String → Option String) (rule : RegularExpressionValidationRule)
    (obj : PyInstance) (h : obj.getattr rule.field = PyValue.none) :
    (regexRuleCheck reMatch render rule obj =
      regexRuleCheck reMatch render rule
        { obj with
          getattr := fun f => if f = rule.field then PyValue.str ("") else obj.getattr f }) ∧
    (rule.context_processing = false → reMatch rule.regular_expression ("") = false →
      regexRuleCheck reMatch render rule obj =
        RegexCheckResult.violation rule.field
          (messageOr rule.error_message
            ("Value does not conform to regex: " ++ rule.regular_expression))) ∧
    (rule.context_processing = false → reMatch rule.regular_expression ("") = true →
      regexRuleCheck reMatch render rule obj = RegexCheckResult.pass) ∧
    (∀ p, rule.context_processing = true → render rule.regular_expression = some p →
      (regexRuleCheck reMatch render rule obj = RegexCheckResult.pass ↔
        reMatch p ("") = true)) ∧
    (∀ p, rule.context_processing = true → render rule.regular_expression = some p →
      reMatch p ("") = false →
      regexRuleCheck reMatch render rule obj =
        RegexCheckResult.violation rule.field
          (messageOr rule.error_message
            ("Value does not conform to regex: " ++ p))) := by
  refine ⟨?_, ?_, ?_, ?_, ?_⟩
  · simp [regexRuleCheck, h]
  · intro h1 h2
    simp [regexRuleCheck, h, h1, h2]
  · intro h1 h2
    simp [regexRuleCheck, h, h1, h2]
  · intro p h1 h2
    by_cases hm : reMatch p ("") = true <;> simp [regexRuleCheck, h, h1, h2, hm]
  · intro p h1 h2 h3
    simp [regexRuleCheck, h, h1, h2, h3]

/-- A raw-pattern regex rule on field `x` for the C5 witness. -/
def c5Rule : RegularExpressionValidationRule :=
  { name := "r", field := "x", regular_expression := "abc",
    context_processing := false, error_message := Option.none }

/-- An instance whose every attribute is `None`, for the C5 witness. -/
def c5Instance : PyInstance :=
  { name := "o", contentType := "dcim.site", objId := 1,
    getattr := fun _ => PyValue.none }

/-- A context-processed regex rule on field `x` for the C5 witness. -/
def c5RuleCtx : RegularExpressionValidationRule :=
  { name := "r2", field := "x", regular_expression := "raw",
    context_processing := true, error_message := Option.none }

/-- Witness for C5: with a matcher rejecting everything, the `None` value is
coerced to the empty string and yields the generated violation — naming the
raw pattern for a raw rule and the rendered pattern for a context-processed
rule. -/
theorem c5_regex_witness :
    regexRuleCheck (fun _ _ => false) (fun p => some p) c5Rule c5Instance =
      RegexCheckResult.violation ("x") ("Value does not conform to regex: abc") ∧
    regexRuleCheck (fun _ _ => false) (fun _ => some ("ren")) c5RuleCtx c5Instance =
      RegexCheckResult.violation ("x") ("Value does not conform to regex: ren") := by
  constructor
  · have h := (c5_regex_none_as_empty (fun _ _ => false) (fun p => some p)
      c5Rule c5Instance rfl).2.1 rfl rfl
    simpa [c5Rule, messageOr] using h
  · have h := (c5_regex_none_as_empty (fun _ _ => false) (fun _ => some ("ren"))
      c5RuleCtx c5Instance rfl).2.2.2.2 ("ren") rfl rfl rfl
    simpa [c5RuleCtx, messageOr] using h

/-! ### Claim C4 -/

/-- C4: when a ruleset's audit raises the structured `AuditError`, the
ledger writes are the same whether or not the ruleset is enforced (they all
complete before the re-raise decision), and `clean` re-raises the failure
exactly when `enforce` is set; with `enforce` unset the failure is
swallowed and `clean` returns normally. -/
theorem c4_enforce_gates_reraise (rs : RulesetSpec) (e : AuditErrorData)
    (inst : PyInstance) (date : Nat) (led : Ledger)
    (h : rs.audit = AuditOutcome.auditError e) :
    (auditClean rs inst date led).2 =
      (auditClean ⟨rs.className, false, rs.audit⟩ inst date led).2 ∧
    ((auditClean rs inst date led).1 = CleanResult.raisedAuditError e ↔
      rs.enforce = true) ∧
    (rs.enforce = false → (auditClean rs inst date led).1 = CleanResult.ok) := by
  obtain ⟨cn, enf, au⟩ := rs
  simp only at h
  subst h
  cases enf <;> simp [auditClean]

/-- A concrete instance for the C4 and C8 witnesses. -/
def c4Instance : PyInstance :=
  { name := "o", contentType := "dcim.site", objId := 7,
    getattr := fun _ => PyValue.str ("v") }

/-- Witness for C4: an enforced ruleset with an unkeyed failure re-raises
it, and its ledger is identical to the non-enforced ledger. -/
theorem c4_enforce_witness :
    (auditClean ⟨"C", true, AuditOutcome.auditError (AuditErrorData.unkeyed ["m"])⟩
        c4Instance 0 []).1 =
      CleanResult.raisedAuditError (AuditErrorData.unkeyed ["m"]) ∧
    (auditClean ⟨"C", true, AuditOutcome.auditError (AuditErrorData.unkeyed ["m"])⟩
        c4Instance 0 []).2 =
      (auditClean ⟨"C", false, AuditOutcome.auditError (AuditErrorData.unkeyed ["m"])⟩
        c4Instance 0 []).2 :=
  ⟨(c4_enforce_gates_reraise
      ⟨"C", true, AuditOutcome.auditError (AuditErrorData.unkeyed ["m"])⟩
      (AuditErrorData.unkeyed ["m"]) c4Instance 0 [] rfl).2.1.mpr rfl,
   (c4_enforce_gates_reraise
      ⟨"C", true, AuditOutcome.auditError (AuditErrorData.unkeyed ["m"])⟩
      (AuditErrorData.unkeyed ["m"]) c4Instance 0 [] rfl).1⟩

/-! ### Claim C8 -/

/-- C8: an exception other than `AuditError` raised by a ruleset's audit is
not caught: `clean` propagates it unmodified, writes nothing to the ledger
(no reconciliation sweep, no whole-object row), and the dispatch loop stops
there with the ledger untouched. -/
theorem c8_other_exception_propagates (rs : RulesetSpec) (n : String)
    (inst : PyInstance) (date : Nat) (led : Ledger) (rest : List RulesetSpec)
    (h : rs.audit = AuditOutcome.otherError n) :
    auditClean rs inst date led = (CleanResult.raisedOther n, led) ∧
    runAuditClasses inst date (rs :: rest) led =
      (some (PassError.otherErrorRaised n), led) := by
  have h1 : auditClean rs inst date led = (CleanResult.raisedOther n, led) := by
    simp [auditClean, h]
  exact ⟨h1, by simp [runAuditClasses, h1]⟩

/-- Witness for C8 at a concrete ruleset, exception and ledger. -/
theorem c8_other_exception_witness :
    auditClean ⟨"C", true, AuditOutcome.otherError ("KeyError")⟩ c4Instance 3 [] =
      (CleanResult.raisedOther ("KeyError"), []) ∧
    runAuditClasses c4Instance 3
        [⟨"C", true, AuditOutcome.otherError ("KeyError")⟩, ⟨"D", false, AuditOutcome.ok⟩] [] =
      (some (PassError.otherErrorRaised ("KeyError")), []) :=
  c8_other_exception_propagates ⟨"C", true, AuditOutcome.otherError ("KeyError")⟩
    ("KeyError") c4Instance 3 [] [⟨"D", false, AuditOutcome.ok⟩] rfl

/-! ### Claim C2 -/

/-- An enforced ruleset whose audit fails on attribute `a`. -/
def c2Enforced : RulesetSpec :=
  ⟨"RS1", true, AuditOutcome.auditError (AuditErrorData.keyed [("a", ["bad"])])⟩

/-- A second, passing ruleset registered after the enforced one. -/
def c2Second : RulesetSpec := ⟨"RS2", false, AuditOutcome.ok⟩

/-- A non-enforced ruleset whose audit fails with an unkeyed message. -/
def c2NonEnforced : RulesetSpec :=
  ⟨"R1", false, AuditOutcome.auditError (AuditErrorData.unkeyed ["m"])⟩

/-- The instance validated in the C2 scenarios. -/
def c2Instance : PyInstance :=
  { name := "o", contentType := "dcim.site", objId := 2,
    getattr := fun _ => PyValue.str ("v") }

/-- A pass with no declarative rules and the two rulesets above. -/
def c2Config : ValidationConfig :=
  { regexRules := [], minMaxRules := [], requiredRules := [], uniqueRules := [],
    auditClasses := [c2Enforced, c2Second], db := [],
    reMatch := fun _ _ => true, render := fun p => some p }

/-- C2 is false on the code: in a pass whose first ruleset is enforced and
fails, the re-raised failure aborts the dispatch loop, so the second
ruleset never runs (the final ledger holds no row of audit class RS2,
while a pass over RS2 alone does write such a row), and the report carries
only the first failure instead of an aggregate. -/
theorem c2_counterexample :
    (baseValidatorClean c2Config c2Instance 0 []).1 =
      some (PassError.auditErrorRaised (AuditErrorData.keyed [("a", ["bad"])])) ∧
    ((baseValidatorClean c2Config c2Instance 0 []).2.all
      (fun r => !(r.auditClassName == "RS2"))) = true ∧
    ((baseValidatorClean { c2Config with auditClasses := [c2Second] } c2Instance 0 []).2.any
      (fun r => r.auditClassName == "RS2")) = true := by
  refine ⟨by decide, by decide, by decide⟩

/-- C2 amended: an exception raised by a rule family or by an enforced
ruleset aborts the pass at once, so subsequent families and rulesets do not
run and only the first failure is reported; only a non-enforced ruleset's
audit failure is swallowed, letting the remaining rulesets run on the
ledger it produced. -/
theorem c2_amended_nonenforced_continues (rs : RulesetSpec) (rest : List RulesetSpec)
    (inst : PyInstance) (date : Nat) (led : Ledger) (e : AuditErrorData)
    (h1 : rs.enforce = false) (h2 : rs.audit = AuditOutcome.auditError e) :
    runAuditClasses inst date (rs :: rest) led =
      runAuditClasses inst date rest (auditClean rs inst date led).2 := by
  obtain ⟨cn, enf, au⟩ := rs
  simp only at h1 h2
  subst h1
  subst h2
  cases e <;> simp [runAuditClasses, auditClean]

/-- Witness for the amended C2: a non-enforced failing ruleset does not
stop the ruleset that follows it. -/
theorem c2_amended_witness :
    runAuditClasses c2Instance 0 [c2NonEnforced, c2Second] [] =
      runAuditClasses c2Instance 0 [c2Second] (auditClean c2NonEnforced c2Instance 0 []).2 :=
  c2_amended_nonenforced_continues c2NonEnforced [c2Second] c2Instance 0 []
    (AuditErrorData.unkeyed ["m"]) rfl rfl

/-! ### Claim C10 -/

/-- The message fold of the unkeyed `except` branch, as a fold of upserts. -/
theorem unkeyedFold_eq (ctx : AuditCtx) (msgs : List String) (led : Ledger) :
    msgs.foldl (fun l m => audit_result ctx l m Option.none false) led =
      msgs.foldl (fun l m => upsert l (mkRow ctx m Option.none false)) led := rfl

/-- The ledger produced by `clean` on an unkeyed audit failure, spelled out:
invalid writes to `"all"` for each message, the reconciliation sweep with an
empty excluded set, then the whole-object invalid row. -/
theorem auditClean_unkeyed_snd (cn : String) (enf : Bool) (msgs : List String)
    (inst : PyInstance) (date : Nat) (led : Ledger) :
    (auditClean ⟨cn, enf, AuditOutcome.auditError (AuditErrorData.unkeyed msgs)⟩
        inst date led).2 =
      audit_result ⟨cn, inst, date⟩
        (mark_existing_attributes_as_valid ⟨cn, inst, date⟩
          (msgs.foldl (fun l m => audit_result ⟨cn, inst, date⟩ l m Option.none false) led)
          [])
        (inst.name ++ " is not valid") Option.none false := by
  cases enf <;> rfl

/-- C10: when the audit failure carries only an unkeyed message list, the
excluded set stays empty, so after the run every previously recorded
attribute row for this (ruleset, instance) whose attribute name is neither
the `"all"` sentinel nor the empty string (a falsy name is coerced to
`"all"` by `audit_result`) has been re-marked valid with the reconciliation
message, even though the audit failed; and since each unkeyed message is
upserted to the single `"all"` key, the row surviving at `"all"` is the
final whole-object invalid row. -/
theorem c10_unkeyed_failure (cn : String) (enf : Bool) (msgs : List String)
    (inst : PyInstance) (date : Nat) (led : Ledger) :
    (findRow (auditClean ⟨cn, enf, AuditOutcome.auditError (AuditErrorData.unkeyed msgs)⟩
          inst date led).2 (ctxKey ⟨cn, inst, date⟩ allAttr) =
      some (mkRow ⟨cn, inst, date⟩ (inst.name ++ " is not valid") Option.none false)) ∧
    (∀ r ∈ led, r.auditClassName = cn → r.contentType = inst.contentType →
      r.objectId = inst.objId → r.validatedAttribute ≠ allAttr →
      r.validatedAttribute ≠ "" →
      findRow (auditClean ⟨cn, enf, AuditOutcome.auditError (AuditErrorData.unkeyed msgs)⟩
          inst date led).2 (rowKey r) =
        some (validRow ⟨cn, inst, date⟩ r.validatedAttribute)) := by
  rw [auditClean_unkeyed_snd]
  set ctx : AuditCtx := ⟨cn, inst, date⟩ with hctx
  constructor
  · rw [show ctxKey ctx allAttr =
      rowKey (mkRow ctx (inst.name ++ " is not valid") Option.none false) from rfl]
    exact findRow_upsert_self _ _
  · intro r hr h1 h2 h3 h4 h5
    have hkey : rowKey r = ctxKey ctx r.validatedAttribute := by
      simp [rowKey, ctxKey, hctx, h1, h2, h3]
    have hra : r ∈ msgs.foldl (fun l m => audit_result ctx l m Option.none false) led := by
      rw [unkeyedFold_eq]
      refine mem_foldl_upsert_of_ne _ _ hr ?_
      intro m _
      rw [rowKey_mkRow_none, hkey]
      exact fun hh => h4 (ctxKey_inj hh).symm
    have hattr : r.validatedAttribute ∈ existingAttributes ctx
        (msgs.foldl (fun l m => audit_result ctx l m Option.none false) led) [] :=
      mem_existingAttributes_of hra h1 h2 h3 h4 (by simp)
    have hmark := findRow_mark_existing_marked ctx
      (msgs.foldl (fun l m => audit_result ctx l m Option.none false) led) [] hattr h5
    rw [hkey]
    unfold audit_result
    rw [findRow_upsert_ne]
    · rw [unkeyedFold_eq] at hmark
      exact hmark
    · rw [rowKey_mkRow_none]
      exact fun hh => h4 (ctxKey_inj hh)

/-- A previously recorded invalid attribute row for the C10 witness. -/
def c10Row : AuditRow :=
  { auditClassName := "CN", contentType := "dcim.site", objectId := 7,
    validatedAttribute := "x", lastValidationDate := 0,
    validatedAttributeValue := Option.none, message := "x bad", valid := false }

/-- The audited instance for the C10 witness. -/
def c10Instance : PyInstance :=
  { name := "o", contentType := "dcim.site", objId := 7,
    getattr := fun _ => PyValue.str ("v") }

/-- Witness for C10 at a concrete ledger with one previously invalid
attribute row and a two-message unkeyed failure. -/
theorem c10_unkeyed_witness :
    findRow (auditClean ⟨"CN", false,
        AuditOutcome.auditError (AuditErrorData.unkeyed ["m1", "m2"])⟩
        c10Instance 5 [c10Row]).2 (rowKey c10Row) =
      some (validRow ⟨"CN", c10Instance, 5⟩ ("x")) := by
  have h := (c10_unkeyed_failure ("CN") false ["m1", "m2"] c10Instance 5 [c10Row]).2
    c10Row (by simp) rfl rfl rfl (by decide) (by decide)
  simpa [c10Row] using h

/-! ### Claim C3 -/

/-- The ledger produced by `clean` on a keyed audit failure, spelled out:
the per-attribute invalid writes, the reconciliation sweep excluding the
failed attributes, then the whole-object invalid row. -/
theorem auditClean_keyed_snd (cn : String) (enf : Bool)
    (dict : List (String × List String)) (inst : PyInstance) (date : Nat) (led : Ledger) :
    (auditClean ⟨cn, enf, AuditOutcome.auditError (AuditErrorData.keyed dict)⟩
        inst date led).2 =
      audit_result ⟨cn, inst, date⟩
        (mark_existing_attributes_as_valid ⟨cn, inst, date⟩
          (recordKeyed ⟨cn, inst, date⟩ dict led).2
          (recordKeyed ⟨cn, inst, date⟩ dict led).1)
        (inst.name ++ " is not valid") Option.none false := by
  cases enf <;> rfl

/-- C3: partial recovery across two successive runs of the same ruleset on
the same instance, from any starting ledger.  Run 1 fails on attributes
`A` and `B`: both get invalid ledger rows.  Run 2 fails only on `A`: after
it, `A`'s row is the fresh invalid row while `B`'s row has been re-marked
valid by the reconciliation sweep.  The attribute names are distinct,
proper names: neither the `"all"` sentinel nor the empty string (a falsy
attribute name is coerced to `"all"` by `audit_result`). -/
theorem c3_recovery_across_runs (cn : String) (enf1 enf2 : Bool)
    (A B m1 m2 m3 : String) (inst : PyInstance) (d1 d2 : Nat) (L0 : Ledger)
    (hAB : A ≠ B) (hA : A ≠ allAttr) (hB : B ≠ allAttr)
    (hA0 : A ≠ "") (hB0 : B ≠ "") :
    (findRow (runSeq [(⟨cn, enf1,
          AuditOutcome.auditError (AuditErrorData.keyed [(A, [m1]), (B, [m2])])⟩, inst, d1)] L0)
        (ctxKey ⟨cn, inst, d1⟩ A) = some (mkRow ⟨cn, inst, d1⟩ m1 (some A) false)) ∧
    (findRow (runSeq [(⟨cn, enf1,
          AuditOutcome.auditError (AuditErrorData.keyed [(A, [m1]), (B, [m2])])⟩, inst, d1)] L0)
        (ctxKey ⟨cn, inst, d1⟩ B) = some (mkRow ⟨cn, inst, d1⟩ m2 (some B) false)) ∧
    (findRow (runSeq [(⟨cn, enf1,
          AuditOutcome.auditError (AuditErrorData.keyed [(A, [m1]), (B, [m2])])⟩, inst, d1),
          (⟨cn, enf2, AuditOutcome.auditError (AuditErrorData.keyed [(A, [m3])])⟩, inst, d2)] L0)
        (ctxKey ⟨cn, inst, d2⟩ A) = some (mkRow ⟨cn, inst, d2⟩ m3 (some A) false)) ∧
    (findRow (runSeq [(⟨cn, enf1,
          AuditOutcome.auditError (AuditErrorData.keyed [(A, [m1]), (B, [m2])])⟩, inst, d1),
          (⟨cn, enf2, AuditOutcome.auditError (AuditErrorData.keyed [(A, [m3])])⟩, inst, d2)] L0)
        (ctxKey ⟨cn, inst, d2⟩ B) = some (validRow ⟨cn, inst, d2⟩ B)) ∧
    (mkRow ⟨cn, inst, d1⟩ m1 (some A) false).valid = false ∧
    (mkRow ⟨cn, inst, d1⟩ m2 (some B) false).valid = false ∧
    (mkRow ⟨cn, inst, d2⟩ m3 (some A) false).valid = false ∧
    (validRow ⟨cn, inst, d2⟩ B).valid = true := by
  set ctx1 : AuditCtx := ⟨cn, inst, d1⟩ with hctx1
  set ctx2 : AuditCtx := ⟨cn, inst, d2⟩ with hctx2
  set rA1 : AuditRow := mkRow ctx1 m1 (some A) false with hrA1
  set rB1 : AuditRow := mkRow ctx1 m2 (some B) false with hrB1
  set rA2 : AuditRow := mkRow ctx2 m3 (some A) false with hrA2
  set rs1 : RulesetSpec :=
    ⟨cn, enf1, AuditOutcome.auditError (AuditErrorData.keyed [(A, [m1]), (B, [m2])])⟩ with hrs1
  set rs2 : RulesetSpec :=
    ⟨cn, enf2, AuditOutcome.auditError (AuditErrorData.keyed [(A, [m3])])⟩ with hrs2
  have neKey : ∀ x y : String, x ≠ y → ctxKey ctx1 x ≠ ctxKey ctx1 y :=
    fun x y hxy hh => hxy (ctxKey_inj hh)
  have neKey2 : ∀ x y : String, x ≠ y → ctxKey ctx2 x ≠ ctxKey ctx2 y :=
    fun x y hxy hh => hxy (ctxKey_inj hh)
  have hL1 : (auditClean rs1 inst d1 L0).2 =
      audit_result ctx1
        (mark_existing_attributes_as_valid ctx1 (upsert (upsert L0 rA1) rB1) [A, B])
        (inst.name ++ " is not valid") Option.none false := by
    rw [hrs1, hctx1, auditClean_keyed_snd]
    rfl
  have hkA1 : rowKey rA1 = ctxKey ctx1 A := by
    rw [hrA1]
    exact rowKey_mkRow_some _ _ _ _ hA0
  have hkB1 : rowKey rB1 = ctxKey ctx1 B := by
    rw [hrB1]
    exact rowKey_mkRow_some _ _ _ _ hB0
  have hkA2 : rowKey rA2 = ctxKey ctx2 A := by
    rw [hrA2]
    exact rowKey_mkRow_some _ _ _ _ hA0
  have h1A : findRow (auditClean rs1 inst d1 L0).2 (ctxKey ctx1 A) = some rA1 := by
    rw [hL1]
    unfold audit_result
    rw [findRow_upsert_ne _ _ _ (by rw [rowKey_mkRow_none]; exact neKey A allAttr hA)]
    rw [findRow_mark_existing_ne _ _ _ _ (fun a ha => ?_)]
    · rw [findRow_upsert_ne _ _ _ (by rw [hkB1]; exact neKey A B hAB)]
      rw [← hkA1]
      exact findRow_upsert_self _ _
    · rcases of_mem_existingAttributes ha with ⟨hnall, hnex⟩
      by_cases ha0 : a = ""
      · subst ha0
        rw [rowKey_validRow_empty]
        exact fun hh => hA (ctxKey_inj hh).symm
      · rw [rowKey_validRow _ _ ha0]
        intro hh
        exact hnex (by simp [ctxKey_inj hh])
  have h1B : findRow (auditClean rs1 inst d1 L0).2 (ctxKey ctx1 B) = some rB1 := by
    rw [hL1]
    unfold audit_result
    rw [findRow_upsert_ne _ _ _ (by rw [rowKey_mkRow_none]; exact neKey B allAttr hB)]
    rw [findRow_mark_existing_ne _ _ _ _ (fun a ha => ?_)]
    · rw [← hkB1]
      exact findRow_upsert_self _ _
    · rcases of_mem_existingAttributes ha with ⟨hnall, hnex⟩
      by_cases ha0 : a = ""
      · subst ha0
        rw [rowKey_validRow_empty]
        exact fun hh => hB (ctxKey_inj hh).symm
      · rw [rowKey_validRow _ _ ha0]
        intro hh
        exact hnex (by simp [ctxKey_inj hh])
  have hL2 : (auditClean rs2 inst d2 (auditClean rs1 inst d1 L0).2).2 =
      audit_result ctx2
        (mark_existing_attributes_as_valid ctx2
          (upsert (auditClean rs1 inst d1 L0).2 rA2) [A])
        (inst.name ++ " is not valid") Option.none false := by
    rw [hrs2, hctx2, auditClean_keyed_snd]
    rfl
  have h2A : findRow (auditClean rs2 inst d2 (auditClean rs1 inst d1 L0).2).2
      (ctxKey ctx2 A) = some rA2 := by
    rw [hL2]
    unfold audit_result
    rw [findRow_upsert_ne _ _ _ (by rw [rowKey_mkRow_none]; exact neKey2 A allAttr hA)]
    rw [findRow_mark_existing_ne _ _ _ _ (fun a ha => ?_)]
    · rw [← hkA2]
      exact findRow_upsert_self _ _
    · rcases of_mem_existingAttributes ha with ⟨hnall, hnex⟩
      by_cases ha0 : a = ""
      · subst ha0
        rw [rowKey_validRow_empty]
        exact fun hh => hA (ctxKey_inj hh).symm
      · rw [rowKey_validRow _ _ ha0]
        intro hh
        exact hnex (by simp [ctxKey_inj hh])
  have hvB : rB1.validatedAttribute = B := by
    rw [hrB1]
    exact mkRow_vAttr_some _ _ _ _ hB0
  have h2B : findRow (auditClean rs2 inst d2 (auditClean rs1 inst d1 L0).2).2
      (ctxKey ctx2 B) = some (validRow ctx2 B) := by
    have hmem1 : rB1 ∈ (auditClean rs1 inst d1 L0).2 := (findRow_eq_some h1B).1
    have hmem2 : rB1 ∈ upsert (auditClean rs1 inst d1 L0).2 rA2 := by
      refine mem_upsert_of_ne_key hmem1 ?_
      rw [(findRow_eq_some h1B).2, hkA2]
      exact fun hh => hAB (ctxKey_inj hh).symm
    have hattr : rB1.validatedAttribute ∈ existingAttributes ctx2
        (upsert (auditClean rs1 inst d1 L0).2 rA2) [A] := by
      refine mem_existingAttributes_of hmem2 ?_ ?_ ?_ ?_ ?_
      · rw [hrB1, mkRow_className, hctx1, hctx2]
      · rw [hrB1, mkRow_contentType, hctx1, hctx2]
      · rw [hrB1, mkRow_objectId, hctx1, hctx2]
      · rw [hvB]
        exact hB
      · rw [hvB]
        intro hh
        have hBA : B = A := by simpa using hh
        exact hAB hBA.symm
    have hmark := findRow_mark_existing_marked ctx2
      (upsert (auditClean rs1 inst d1 L0).2 rA2) [A] hattr (by rw [hvB]; exact hB0)
    rw [hvB] at hmark
    rw [hL2]
    unfold audit_result
    rw [findRow_upsert_ne _ _ _ (by rw [rowKey_mkRow_none]; exact neKey2 B allAttr hB)]
    exact hmark
  refine ⟨h1A, h1B, h2A, h2B, ?_, ?_, ?_, ?_⟩
  · rw [hrA1]
    exact mkRow_valid _ _ _ _
  · rw [hrB1]
    exact mkRow_valid _ _ _ _
  · rw [hrA2]
    exact mkRow_valid _ _ _ _
  · exact mkRow_valid _ _ _ _

/-- The audited instance for the C3 witness. -/
def c3Instance : PyInstance :=
  { name := "o", contentType := "dcim.site", objId := 3,
    getattr := fun _ => PyValue.str ("v") }

/-- Witness for C3 at concrete attributes, messages, dates and an empty
starting ledger: after run 2, `b` is valid again and `a` is not. -/
theorem c3_recovery_witness :
    findRow (runSeq [(⟨"CN", false,
          AuditOutcome.auditError (AuditErrorData.keyed [("a", ["ba"]), ("b", ["bb"])])⟩,
          c3Instance, 1),
          (⟨"CN", false, AuditOutcome.auditError (AuditErrorData.keyed [("a", ["ba2"])])⟩,
          c3Instance, 2)] [])
        (ctxKey ⟨"CN", c3Instance, 2⟩ ("b")) = some (validRow ⟨"CN", c3Instance, 2⟩ ("b")) ∧
    findRow (runSeq [(⟨"CN", false,
          AuditOutcome.auditError (AuditErrorData.keyed [("a", ["ba"]), ("b", ["bb"])])⟩,
          c3Instance, 1),
          (⟨"CN", false, AuditOutcome.auditError (AuditErrorData.keyed [("a", ["ba2"])])⟩,
          c3Instance, 2)] [])
        (ctxKey ⟨"CN", c3Instance, 2⟩ ("a")) =
      some (mkRow ⟨"CN", c3Instance, 2⟩ ("ba2") (some ("a")) false) :=
  ⟨(c3_recovery_across_runs ("CN") false false ("a") ("b") ("ba") ("bb") ("ba2")
      c3Instance 1 2 [] (by decide) (by decide) (by decide) (by decide)
      (by decide)).2.2.2.1,
   (c3_recovery_across_runs ("CN") false false ("a") ("b") ("ba") ("bb") ("ba2")
      c3Instance 1 2 [] (by decide) (by decide) (by decide) (by decide)
      (by decide)).2.2.1⟩

/-! ### Claim C9 -/

/-- C9: across any sequence of audit ruleset runs from a ledger with at
most one row per key tuple, the ledger keeps at most one row per key tuple;
no run ever deletes a key (every old key is still present afterwards); and
each single `audit_result` write is an upsert whose key afterwards holds
exactly the freshly built row (timestamp, value, message and valid all
replaced). -/
theorem c9_ledger_invariant (runs : List (RulesetSpec × PyInstance × Nat))
    (L : Ledger) (h : UniqueKeys L) :
    UniqueKeys (runSeq runs L) ∧
    (∀ r ∈ L, ∃ r', r' ∈ runSeq runs L ∧ rowKey r' = rowKey r) ∧
    (∀ (ctx : AuditCtx) (led : Ledger) (msg : String) (attrName : Option String)
      (valid : Bool),
      findRow (audit_result ctx led msg attrName valid)
          (rowKey (mkRow ctx msg attrName valid)) =
        some (mkRow ctx msg attrName valid)) := by
  have huniq : ∀ (rns : List (RulesetSpec × PyInstance × Nat)) (led : Ledger),
      UniqueKeys led → UniqueKeys (runSeq rns led) := by
    intro rns
    induction rns with
    | nil => exact fun led hl => hl
    | cons p rest ih =>
        intro led hl
        obtain ⟨rs, inst, d⟩ := p
        exact ih _ (uniqueKeys_auditClean rs inst d hl)
  have hsup : ∀ (rns : List (RulesetSpec × PyInstance × Nat)) (led : Ledger)
      (r : AuditRow), r ∈ led → ∃ r', r' ∈ runSeq rns led ∧ rowKey r' = rowKey r := by
    intro rns
    induction rns with
    | nil => exact fun led r hr => ⟨r, hr, rfl⟩
    | cons p rest ih =>
        intro led r hr
        obtain ⟨rs, inst, d⟩ := p
        rcases exists_key_mem_auditClean rs inst d r hr with ⟨r1, hr1, hk1⟩
        rcases ih _ r1 hr1 with ⟨r2, hr2, hk2⟩
        exact ⟨r2, hr2, hk2.trans hk1⟩
  exact ⟨huniq runs L h, fun r hr => hsup runs L r hr,
    fun ctx led msg a v => findRow_upsert_self _ _⟩

/-- Witness for C9: a concrete run sequence from the empty ledger, and a
concrete upsert write fully replacing the row at its key. -/
theorem c9_ledger_witness :
    UniqueKeys (runSeq [(⟨"C", false, AuditOutcome.ok⟩, c3Instance, 0)] []) ∧
    findRow (audit_result ⟨"C", c3Instance, 0⟩ [] ("m") (some ("x")) true)
        (rowKey (mkRow ⟨"C", c3Instance, 0⟩ ("m") (some ("x")) true)) =
      some (mkRow ⟨"C", c3Instance, 0⟩ ("m") (some ("x")) true) :=
  ⟨(c9_ledger_invariant [(⟨"C", false, AuditOutcome.ok⟩, c3Instance, 0)] []
      List.Pairwise.nil).1,
   (c9_ledger_invariant [] [] List.Pairwise.nil).2.2
      ⟨"C", c3Instance, 0⟩ [] ("m") (some ("x")) true⟩

end DataValidationEngine
